import Mathlib

/-!
Shallow embedding of `src/fetch_data.py` (MLB Underestimated Player Analyzer,
rolling wOBA/xwOBA differential pipeline).

Numeric values carried by the pipeline are IEEE doubles in the source; here
they are modelled exactly by rationals, extended with the float special
values `nan` and signed infinity (`RFloat`), because pandas division by a
zero denominator produces `nan` for `0/0` and a signed infinity otherwise,
and `pd.isna` is false on infinities.  Ties in Python's banker's rounding
are immaterial to every statement below; decimal rounding is modelled as
round-half-up on exact rationals.

`sort_values` is modelled as a stable insertion sort on the quoted keys
(within equal keys, original input order is preserved).
-/

/-- Float-like value: `nan`, signed infinity (`inf true` is positive
infinity), or a finite value modelled as an exact rational. -/
inductive RFloat where
  | nan : RFloat
  | inf : Bool → RFloat
  | fin : ℚ → RFloat
deriving DecidableEq

namespace RFloat

/-- Model of `pd.isna` — true only on `nan`, not on infinities. -/
def isNan : RFloat → Bool
  | nan => true
  | _ => false

/-- IEEE subtraction on the modelled values. -/
def sub : RFloat → RFloat → RFloat
  | nan, _ => nan
  | _, nan => nan
  | inf b, inf c => if b = c then nan else inf b
  | inf b, fin _ => inf b
  | fin _, inf c => inf !c
  | fin a, fin b => fin (a - b)

/-- IEEE strict less-than: any comparison involving `nan` is false. -/
def blt : RFloat → RFloat → Bool
  | nan, _ => false
  | _, nan => false
  | inf b, inf c => !b && c
  | inf b, fin _ => !b
  | fin _, inf c => c
  | fin a, fin b => decide (a < b)

/-- Non-strict comparison used to state sortedness: `a` is not above `b`. -/
def ble (a b : RFloat) : Bool := !blt b a

end RFloat

/-- Round-half-up to the nearest integer, computed on the numerator and
(positive) denominator: `⌊q + 1/2⌋ = (2*num + den).fdiv (2*den)`. -/
def qround (q : ℚ) : ℤ := Int.fdiv (2 * q.num + q.den) (2 * q.den)

/-- Python `round(q, 3)` on an exact rational (half-up at exact ties). -/
def round3 (q : ℚ) : ℚ := (qround (q * 1000) : ℚ) / 1000

/-- Python `round(q, 1)` on an exact rational. -/
def round1 (q : ℚ) : ℚ := (qround (q * 10) : ℚ) / 10

/-- Python `round(float(v), 3)` lifted to float-like values: fixes `nan` and the
infinities. -/
def RFloat.round3F : RFloat → RFloat
  | .fin q => .fin (round3 q)
  | v => v

/-- Pandas element-wise division of two (possibly-`nan`) values:
`0/0 = nan`, `a/0 = ±inf` for `a ≠ 0`, ordinary division otherwise. -/
def fdiv : Option ℚ → Option ℚ → RFloat
  | some a, some b =>
      if b = 0 then (if a = 0 then .nan else .inf (decide (0 < a)))
      else .fin (a / b)
  | _, _ => .nan

/-- The configured `ROLLING_WINDOWS = [50, 100, 250]` (source line 27). -/
def ROLLING_WINDOWS : List ℕ := [50, 100, 250]

/-- The configured `TREND_POINTS = 20` (source line 28). -/
def TREND_POINTS : ℕ := 20

/-- The configured `MIN_PA = 50` (source line 29). -/
def MIN_PA : ℕ := 50

/-- One pitch-level Statcast record, restricted to the fields the pipeline
reads.  Raw numeric fields are `Option ℚ`: `none` models a missing or
unparseable value (what `pd.to_numeric(..., errors="coerce")` turns into
`NaN`).  `events_present` models `events` being non-null (a
plate-appearance-ending pitch). -/
structure Event where
  batter : ℤ
  game_date : ℕ
  at_bat_number : ℕ
  woba_value : Option ℚ
  woba_denom : Option ℚ
  estimated : Option ℚ
  events_present : Bool
  inning_topbot : String
  home_team : String
  away_team : String
deriving DecidableEq

/-- Coerced `woba_value` (source line 118: unparseable values become 0). -/
def wobaVal (e : Event) : ℚ := e.woba_value.getD 0

/-- Coerced `woba_denom` (source line 119). -/
def wobaDen (e : Event) : ℚ := e.woba_denom.getD 0

/-- Derived `xwoba_value` (source lines 126–128):
`estimated_woba_using_speedangle` when present, else the coerced
`woba_value`. -/
def xwobaVal (e : Event) : ℚ := e.estimated.getD (wobaVal e)

/-- Insert `a` after all strictly smaller elements: together with `ssort`
this is a stable sort for the strict comparison `lt`. -/
def sinsert (lt : α → α → Bool) (a : α) : List α → List α
  | [] => [a]
  | b :: bs => if lt b a then b :: sinsert lt a bs else a :: b :: bs

/-- Stable insertion sort (models `DataFrame.sort_values`, with original
input order preserved within equal keys). -/
def ssort (lt : α → α → Bool) : List α → List α
  | [] => []
  | a :: as => sinsert lt a (ssort lt as)

/-- Strict lexicographic key `(game_date, at_bat_number)` used by
`sort_values(["game_date", "at_bat_number"])` (source line 115). -/
def ltEvent (a b : Event) : Bool :=
  decide (a.game_date < b.game_date) ||
    (decide (a.game_date = b.game_date) && decide (a.at_bat_number < b.at_bat_number))

/-- Strict key on `game_date` alone, used by `sort_values("game_date")`
in `extract_batter_teams` (source line 99). -/
def ltDate (a b : Event) : Bool := decide (a.game_date < b.game_date)

/-- Rows with a non-null `events` marker (plate-appearance-ending). -/
def qualifying (df : List Event) : List Event :=
  df.filter (fun e => e.events_present)

/-- Batting team of an event (source lines 94–97): away team when the
half-inning is "Top", home team otherwise. -/
def batTeam (e : Event) : String :=
  if e.inning_topbot = "Top" then e.away_team else e.home_team

/-- Model of `extract_batter_teams` (source lines 86–102): qualifying events are
sorted by `game_date` alone, and the batting team of the last row of the
batter's group is taken. -/
def extractBatterTeams (df : List Event) (b : ℤ) : Option String :=
  (((ssort ltDate (qualifying df))).filter (fun e => e.batter == b)).getLast?.map batTeam

/-- One batter's plate-appearance sequence inside `compute_rolling_metrics`:
the qualifying rows sorted by `(game_date, at_bat_number)` (line 115),
grouped by batter, and re-sorted by the same key (line 138). -/
def batterSeq (df : List Event) (b : ℤ) : List Event :=
  ssort ltEvent ((ssort ltEvent (qualifying df)).filter (fun e => e.batter == b))

/-- Model of `Series.rolling(window=w, min_periods=w).sum()` at position `i`:
the sum of the `w` entries ending at `i`, `nan` (here `none`) until `w`
entries have occurred. -/
def trailingSum (w : ℕ) (xs : List ℚ) (i : ℕ) : Option ℚ :=
  if w ≤ i + 1 then some (((xs.take (i + 1)).drop (i + 1 - w)).sum) else none

/-- The whole rolling-sum series, one entry per input position. -/
def rollingSumSeries (w : ℕ) (xs : List ℚ) : List (Option ℚ) :=
  (List.range xs.length).map (trailingSum w xs)

/-- Rolling realized series `woba_num / woba_den` (source line 157). -/
def rollingWoba (w : ℕ) (pa : List Event) : List RFloat :=
  List.zipWith fdiv (rollingSumSeries w (pa.map wobaVal)) (rollingSumSeries w (pa.map wobaDen))

/-- Rolling expected series `xwoba_num / woba_den` (source line 158):
the denominator series is the weight series, shared with `rollingWoba`. -/
def rollingXwoba (w : ℕ) (pa : List Event) : List RFloat :=
  List.zipWith fdiv (rollingSumSeries w (pa.map xwobaVal)) (rollingSumSeries w (pa.map wobaDen))

/-- Rolling differential series (source line 159), element-wise IEEE
subtraction. -/
def rollingDiff (w : ℕ) (pa : List Event) : List RFloat :=
  List.zipWith RFloat.sub (rollingWoba w pa) (rollingXwoba w pa)

/-- Model of `series.iloc[-1] if not pd.isna(series.iloc[-1]) else None`
(source lines 162–164). -/
def latestOf (s : List RFloat) : Option RFloat :=
  s.getLast?.bind (fun v => if v.isNan then none else some v)

/-- Model of `np.linspace(0, L-1, TREND_POINTS, dtype=int)` at sample `i`:
the fractional index `i*(L-1)/(TREND_POINTS-1)` truncated toward zero
(floor, since it is non-negative). -/
def sampleIdx (L i : ℕ) : ℕ := (i * (L - 1)) / (TREND_POINTS - 1)

/-- The trend sampler (source lines 166–179) on one rolling series:
drop `nan` positions, then take `TREND_POINTS` floor-rounded evenly spaced
samples when at least `TREND_POINTS` defined positions exist, else all
defined positions in order; each sample is rounded to 3 decimals. -/
def trendSample (s : List RFloat) : List RFloat :=
  if TREND_POINTS ≤ (s.filter (fun v => !v.isNan)).length then
    (List.range TREND_POINTS).map
      (fun i => ((s.filter (fun v => !v.isNan)).getD
        (sampleIdx (s.filter (fun v => !v.isNan)).length i) RFloat.nan).round3F)
  else (s.filter (fun v => !v.isNan)).map RFloat.round3F

/-- Result block for one window (source lines 181–188). -/
structure WindowResult where
  rolling_woba : Option RFloat
  rolling_xwoba : Option RFloat
  diff_rolling_OBA : Option RFloat
  trend_woba : List RFloat
  trend_xwoba : List RFloat
  trend_diff : List RFloat
deriving DecidableEq

/-- One window's computation in `compute_rolling_metrics` (source lines
152–188).  The expected trend is sampled at the indices derived from the
realized series' defined-position count, exactly as the source indexes
`valid_xwoba` with indices computed from `len(valid_woba)`; an
out-of-range access (possible only when the two series have different
`nan` patterns) raises `IndexError` in the source and is modelled by the
`getD` default. -/
def windowResult (w : ℕ) (pa : List Event) : WindowResult :=
  let rw := rollingWoba w pa
  let rx := rollingXwoba w pa
  let rd := rollingDiff w pa
  let validW := rw.filter (fun v => !v.isNan)
  let validX := rx.filter (fun v => !v.isNan)
  let tw := trendSample rw
  let tx :=
    if TREND_POINTS ≤ validW.length then
      (List.range TREND_POINTS).map
        (fun i => (validX.getD (sampleIdx validW.length i) RFloat.nan).round3F)
    else validX.map RFloat.round3F
  { rolling_woba := (latestOf rw).map RFloat.round3F
    rolling_xwoba := (latestOf rx).map RFloat.round3F
    diff_rolling_OBA := (latestOf rd).map RFloat.round3F
    trend_woba := tw
    trend_xwoba := tx
    trend_diff :=
      (List.range tw.length).map
        (fun i => ((tw.getD i RFloat.nan).sub (tx.getD i RFloat.nan)).round3F) }

/-- Per-batter rolling result: total qualifying-event count and the
window-keyed result blocks, in configuration order. -/
structure BatterResult where
  total_pa : ℕ
  windows : List (ℕ × WindowResult)
deriving DecidableEq

/-- The per-batter body of `compute_rolling_metrics` (source lines
137–191): batters under `minPA` produce nothing; windows larger than the
batter's count are skipped; a batter with an empty window map is not
recorded. -/
def batterResult (windows : List ℕ) (minPA : ℕ) (pa : List Event) : Option BatterResult :=
  if pa.length < minPA then none
  else if ((windows.filter (fun w => decide (w ≤ pa.length))).map
      (fun w => (w, windowResult w pa))).isEmpty then none
  else some
    { total_pa := pa.length
      windows := (windows.filter (fun w => decide (w ≤ pa.length))).map
        (fun w => (w, windowResult w pa)) }

/-- Model of `compute_rolling_metrics` as a map from batter id to its optional
result (`none` models absence from the `results` dict). -/
def rollingResults (windows : List ℕ) (minPA : ℕ) (df : List Event) (b : ℤ) :
    Option BatterResult :=
  batterResult windows minPA (batterSeq df b)

/-- One season-level expected-stats row (source lines 210–238).  Numeric
provider fields are `Option ℚ` (`none` = missing/NaN/unparseable, the
values `safe_round` maps to `None`). -/
structure SeasonRow where
  player_id : ℤ
  name_raw : String
  pa : ℕ
  ba : Option ℚ
  woba : Option ℚ
  est_woba : Option ℚ
  est_woba_minus_woba_diff : Option ℚ
  est_ba : Option ℚ
  est_slg : Option ℚ
deriving DecidableEq

/-- One exit-velocity/barrels row (source lines 242–250). -/
structure EVRow where
  player_id : ℤ
  avg_hit_speed : Option ℚ
  avg_hit_angle : Option ℚ
  ev95percent : Option ℚ
  brl_percent : Option ℚ
  max_hit_speed : Option ℚ
deriving DecidableEq

/-- The batted-ball fields attached to a merged record, each rounded to
1 decimal by `safe_round` (absent stays absent). -/
structure EVStats where
  exit_velocity : Option ℚ
  launch_angle : Option ℚ
  hard_hit_pct : Option ℚ
  barrel_pct : Option ℚ
  max_exit_velocity : Option ℚ
deriving DecidableEq

/-- Rounding of one EV row's fields (source lines 246–250). -/
def mkEVStats (r : EVRow) : EVStats :=
  { exit_velocity := r.avg_hit_speed.map round1
    launch_angle := r.avg_hit_angle.map round1
    hard_hit_pct := r.ev95percent.map round1
    barrel_pct := r.brl_percent.map round1
    max_exit_velocity := r.max_hit_speed.map round1 }

/-- A merged player record (source lines 228–273). -/
structure Player where
  player_id : ℤ
  name : String
  team : String
  pa : ℕ
  batting_avg : Option ℚ
  wOBA : Option ℚ
  xwOBA : Option ℚ
  diff_season : Option ℚ
  xBA : Option ℚ
  xSLG : Option ℚ
  ev : Option EVStats
  rolling : Option BatterResult
  diff_rolling_OBA : RFloat
deriving DecidableEq

/-- Name parsing (source lines 218–223): strip, then if a comma is
present, split at the first comma and emit "First Last". -/
def parseName (raw : String) : String :=
  let r := raw.trim
  match r.splitOn "," with
  | [] => r
  | [_] => r
  | last :: rest => (String.intercalate "," rest).trim ++ " " ++ last.trim

/-- Primary-differential selection (source lines 257–264): first window in
`[100, 50, 250]` that is present in the batter's window map with a defined
headline differential. -/
def selectPrimary (br : BatterResult) : Option RFloat :=
  [100, 50, 250].findSome? (fun w => (br.windows.lookup w).bind (fun wr => wr.diff_rolling_OBA))

/-- Building one merged record from a season row (source lines 210–275):
rows under `MIN_PA` are skipped; the primary differential is the selected
rolling differential, else the negated rounded season differential, else
exactly 0. -/
def buildPlayer (ev? : Option (List EVRow)) (rolling : ℤ → Option BatterResult)
    (teamMap : ℤ → Option String) (row : SeasonRow) : Option Player :=
  if row.pa < MIN_PA then none
  else some
    { player_id := row.player_id
      name := parseName row.name_raw
      team := (teamMap row.player_id).getD ""
      pa := row.pa
      batting_avg := row.ba.map round3
      wOBA := row.woba.map round3
      xwOBA := row.est_woba.map round3
      diff_season := row.est_woba_minus_woba_diff.map round3
      xBA := row.est_ba.map round3
      xSLG := row.est_slg.map round3
      ev := (ev?.bind (fun l => l.find? (fun r => r.player_id == row.player_id))).map mkEVStats
      rolling := rolling row.player_id
      diff_rolling_OBA :=
        match (rolling row.player_id).bind selectPrimary with
        | some d => d
        | none =>
          match row.est_woba_minus_woba_diff with
          | some sd => RFloat.fin (round3 (-sd))
          | none => RFloat.fin 0 }

/-- Strict sort key of the final sort (source line 278): Python's `<` on
the primary differential. -/
def ltPlayer (a b : Player) : Bool := RFloat.blt a.diff_rolling_OBA b.diff_rolling_OBA

/-- The merged, sorted output list of `build_output` (source lines
208–278). -/
def outputPlayers (expected : List SeasonRow) (ev? : Option (List EVRow))
    (rolling : ℤ → Option BatterResult) (teamMap : ℤ → Option String) : List Player :=
  ssort ltPlayer (expected.filterMap (buildPlayer ev? rolling teamMap))

/-- The whole pipeline from pitch-level data (steps 3b–5 of `main`). -/
def runPipeline (expected : List SeasonRow) (ev? : Option (List EVRow))
    (pitch : List Event) : List Player :=
  outputPlayers expected ev? (rollingResults ROLLING_WINDOWS MIN_PA pitch)
    (extractBatterTeams pitch)

/-- The sampler as the specification text reads it, for comparison with the
implementation: "rounding each fractional index to the NEAREST available
index" (half rounds up); everything else as in `trendSample`. -/
def specSampleIdx (L i : ℕ) : ℕ :=
  (2 * (i * (L - 1)) + (TREND_POINTS - 1)) / (2 * (TREND_POINTS - 1))

/-- Spec-worded trend sampler (nearest-index rounding), to be compared
with the implementation's `trendSample` (floor/truncation). -/
def specTrendSample (s : List RFloat) : List RFloat :=
  if TREND_POINTS ≤ (s.filter (fun v => !v.isNan)).length then
    (List.range TREND_POINTS).map
      (fun i => ((s.filter (fun v => !v.isNan)).getD
        (specSampleIdx (s.filter (fun v => !v.isNan)).length i) RFloat.nan).round3F)
  else (s.filter (fun v => !v.isNan)).map RFloat.round3F

/-- The team lookup as the specification text reads it: the last
qualifying event under the full `(game date, at-bat number)` ascending
ordering (not the implementation's game-date-only sort). -/
def specTeamLookup (df : List Event) (b : ℤ) : Option String :=
  ((ssort ltEvent (qualifying df)).filter (fun e => e.batter == b)).getLast?.map batTeam

/-- A 30-value rolling series with pairwise distinct defined values, used
to separate nearest-index sampling from truncating sampling. -/
def seriesC2 : List RFloat := (List.range 30).map (fun i => RFloat.fin i)

/-- A 50-event batter whose every event has weight 0 but realized value
9/10: the trailing weight sum of the only full window is 0 while the
trailing realized sum is 45. -/
def evC8 (i : ℕ) : Event :=
  { batter := 1, game_date := 1, at_bat_number := i, woba_value := some (9/10),
    woba_denom := some 0, estimated := none, events_present := true,
    inning_topbot := "Top", home_team := "HOU", away_team := "SEA" }

/-- Pitch data for the C8 counterexample. -/
def dfC8 : List Event := (List.range 50).map evC8

/-- Two same-date events of one batter, listed with the later at-bat
number first: under a game-date-only stable sort the at-bat-2 event stays
last, while the `(date, at-bat)` order puts the at-bat-5 event last. -/
def dfC6 : List Event :=
  [ { batter := 1, game_date := 7, at_bat_number := 5, woba_value := some 0,
      woba_denom := some 1, estimated := none, events_present := true,
      inning_topbot := "Top", home_team := "BOS", away_team := "NYY" },
    { batter := 1, game_date := 7, at_bat_number := 2, woba_value := some 0,
      woba_denom := some 1, estimated := none, events_present := true,
      inning_topbot := "Top", home_team := "NYY", away_team := "BOS" } ]

/-- A well-formed event of batter 1: weight 1, realized 3/10, expected
31/100. -/
def evC1 (i : ℕ) : Event :=
  { batter := 1, game_date := 1, at_bat_number := i, woba_value := some (3/10),
    woba_denom := some 1, estimated := some (31/100), events_present := true,
    inning_topbot := "Top", home_team := "HOU", away_team := "SEA" }

/-- Pitch data with exactly `MIN_PA` qualifying events for batter 1. -/
def dfC1 : List Event := (List.range 50).map evC1

/-- An early-dated event of batter 1 (bottom half: home team bats). -/
def evEarly : Event :=
  { batter := 1, game_date := 3, at_bat_number := 1, woba_value := some 0,
    woba_denom := some 1, estimated := none, events_present := true,
    inning_topbot := "Bot", home_team := "LAD", away_team := "SF" }

/-- The strictly-latest-dated event of batter 1 (top half: away team
bats). -/
def evLate : Event :=
  { batter := 1, game_date := 9, at_bat_number := 1, woba_value := some 1,
    woba_denom := some 1, estimated := none, events_present := true,
    inning_topbot := "Top", home_team := "LAD", away_team := "SF" }

/-- Two events of one batter on distinct dates. -/
def dfC6W : List Event := [evEarly, evLate]

/-- A season row with 600 plate appearances and every provider numeric
present; the provider differential is +0.020. -/
def rowFull : SeasonRow :=
  { player_id := 1, name_raw := "Trout, Mike", pa := 600, ba := some (31/100),
    woba := some (2/5), est_woba := some (39/100),
    est_woba_minus_woba_diff := some (1/50), est_ba := some (3/10),
    est_slg := some (1/2) }

/-- A season row above the threshold with no provider numerics at all. -/
def rowEmptyStats : SeasonRow :=
  { player_id := 2, name_raw := "Ohtani", pa := 60, ba := none, woba := none,
    est_woba := none, est_woba_minus_woba_diff := none, est_ba := none,
    est_slg := none }

/-- A season row below the `MIN_PA` threshold. -/
def rowSmall : SeasonRow :=
  { player_id := 3, name_raw := "Doe, Jay", pa := 49, ba := none, woba := none,
    est_woba := none, est_woba_minus_woba_diff := some (1/100), est_ba := none,
    est_slg := none }

/-- A window result block with a defined headline differential. -/
def wrOf (d : ℚ) : WindowResult :=
  { rolling_woba := none, rolling_xwoba := none,
    diff_rolling_OBA := some (RFloat.fin d),
    trend_woba := [], trend_xwoba := [], trend_diff := [] }

/-- A window result block whose headline differential is undefined. -/
def wrNone : WindowResult :=
  { rolling_woba := none, rolling_xwoba := none, diff_rolling_OBA := none,
    trend_woba := [], trend_xwoba := [], trend_diff := [] }

/-- A batter result with windows 100 and 50 both defined. -/
def brBoth : BatterResult :=
  { total_pa := 300,
    windows := [(50, wrOf (7/1000)), (100, wrOf (5/1000)), (250, wrNone)] }

/-- A batter result whose window 100 is present but undefined. -/
def brSkip : BatterResult :=
  { total_pa := 300,
    windows := [(50, wrOf (7/1000)), (100, wrNone), (250, wrOf (9/1000))] }

set_option maxRecDepth 1000000

theorem sinsert_perm (lt : α → α → Bool) (a : α) (l : List α) :
    (sinsert lt a l).Perm (a :: l) := by
  induction l with
  | nil => simp [sinsert]
  | cons b bs ih =>
    by_cases h : lt b a
    · simpa [sinsert, h] using ((ih.cons b).trans (List.Perm.swap a b bs))
    · simp [sinsert, h]

theorem ssort_perm (lt : α → α → Bool) (l : List α) : (ssort lt l).Perm l := by
  induction l with
  | nil => simp [ssort]
  | cons a as ih => exact (sinsert_perm lt a (ssort lt as)).trans (ih.cons a)

theorem mem_ssort (lt : α → α → Bool) (l : List α) (x : α) :
    x ∈ ssort lt l ↔ x ∈ l :=
  (ssort_perm lt l).mem_iff

theorem mem_sinsert (lt : α → α → Bool) (a : α) (l : List α) (x : α) :
    x ∈ sinsert lt a l ↔ x = a ∨ x ∈ l := by
  rw [(sinsert_perm lt a l).mem_iff, List.mem_cons]

theorem sinsert_pairwise (lt : α → α → Bool) (P : α → Prop)
    (asym : ∀ x y, P x → P y → lt x y = true → lt y x = false)
    (cot : ∀ x y z, P x → P y → P z → lt x z = true → lt x y = true ∨ lt y z = true)
    (a : α) (l : List α) (ha : P a) (hl : ∀ x ∈ l, P x)
    (h : l.Pairwise (fun x y => lt y x = false)) :
    (sinsert lt a l).Pairwise (fun x y => lt y x = false) := by
  induction l with
  | nil => simp [sinsert]
  | cons b bs ih =>
    rcases List.pairwise_cons.mp h with ⟨hb, hbs⟩
    have hPb : P b := hl b (List.mem_cons_self b bs)
    have hPbs : ∀ x ∈ bs, P x := fun x hx => hl x (List.mem_cons_of_mem b hx)
    by_cases hba : lt b a
    · rw [sinsert, if_pos hba]
      refine List.pairwise_cons.mpr ⟨?_, ih hPbs hbs⟩
      intro z hz
      rcases (mem_sinsert lt a bs z).mp hz with rfl | hz'
      · exact asym b z hPb ha hba
      · exact hb z hz'
    · rw [sinsert, if_neg hba]
      refine List.pairwise_cons.mpr ⟨?_, h⟩
      intro z hz
      rcases List.mem_cons.mp hz with rfl | hz'
      · exact Bool.eq_false_iff.mpr hba
      · rcases Bool.eq_false_or_eq_true (lt z a) with ht | hf
        swap
        · exact hf
        · rcases cot z b a (hPbs z hz') hPb ha ht with h1 | h2
          · rw [hb z hz'] at h1; cases h1
          · rw [Bool.eq_false_iff.mpr hba] at h2; cases h2

theorem ssort_pairwise (lt : α → α → Bool) (P : α → Prop)
    (asym : ∀ x y, P x → P y → lt x y = true → lt y x = false)
    (cot : ∀ x y z, P x → P y → P z → lt x z = true → lt x y = true ∨ lt y z = true)
    (l : List α) (hl : ∀ x ∈ l, P x) :
    (ssort lt l).Pairwise (fun x y => lt y x = false) := by
  induction l with
  | nil => simp [ssort]
  | cons a as ih =>
    exact sinsert_pairwise lt P asym cot a (ssort lt as)
      (hl a (List.mem_cons_self a as))
      (fun x hx => hl x (List.mem_cons_of_mem a ((mem_ssort lt as x).mp hx)))
      (ih (fun x hx => hl x (List.mem_cons_of_mem a hx)))

theorem getLast?_eq_of_forall_lt (lt : α → α → Bool) (l : List α) (e : α)
    (hmem : e ∈ l)
    (hsorted : l.Pairwise (fun x y => lt y x = false))
    (hmax : ∀ x ∈ l, x ≠ e → lt x e = true) :
    l.getLast? = some e := by
  induction l with
  | nil => cases hmem
  | cons a as ih =>
    cases as with
    | nil =>
      rcases List.mem_cons.mp hmem with rfl | h
      · rfl
      · cases h
    | cons b bs =>
      rcases List.pairwise_cons.mp hsorted with ⟨ha, has⟩
      rw [List.getLast?_cons_cons]
      by_cases he : e ∈ b :: bs
      · exact ih he has (fun x hx hne => hmax x (List.mem_cons_of_mem a hx) hne)
      · have hea : e = a := by
          rcases List.mem_cons.mp hmem with rfl | h
          · rfl
          · exact absurd h he
        have hbe : b ≠ e := fun hh => he (hh ▸ List.mem_cons_self b bs)
        have h1 : lt b e = true := hmax b (List.mem_cons_of_mem a (List.mem_cons_self b bs)) hbe
        have h2 : lt b a = false := ha b (List.mem_cons_self b bs)
        rw [hea] at h1
        rw [h1] at h2
        cases h2

theorem qround_intCast (m : ℤ) : qround ((m : ℚ)) = m := by
  unfold qround
  rw [Rat.num_intCast, Rat.den_intCast]
  rw [Int.fdiv_eq_ediv _ (by norm_num)]
  omega

theorem round3_int_div (m : ℤ) : round3 ((m : ℚ) / 1000) = (m : ℚ) / 1000 := by
  unfold round3
  rw [div_mul_cancel₀ _ (by norm_num : (1000 : ℚ) ≠ 0), qround_intCast]

theorem round3_eq_int_div (q : ℚ) : ∃ m : ℤ, round3 q = (m : ℚ) / 1000 :=
  ⟨qround (q * 1000), rfl⟩

theorem round3_round3 (q : ℚ) : round3 (round3 q) = round3 q := by
  obtain ⟨m, hm⟩ := round3_eq_int_div q
  rw [hm, round3_int_div]

theorem round3_fix_sub (a b : ℚ) (ha : round3 a = a) (hb : round3 b = b) :
    round3 (a - b) = a - b := by
  obtain ⟨m, hm⟩ := round3_eq_int_div a
  obtain ⟨k, hk⟩ := round3_eq_int_div b
  rw [ha] at hm
  rw [hb] at hk
  rw [hm, hk]
  have h : (m : ℚ) / 1000 - (k : ℚ) / 1000 = ((m - k : ℤ) : ℚ) / 1000 := by
    push_cast
    ring
  rw [h, round3_int_div]

theorem round3F_round3F (v : RFloat) : v.round3F.round3F = v.round3F := by
  cases v <;> simp [RFloat.round3F, round3_round3]

theorem round3F_isNan (v : RFloat) : v.round3F.isNan = v.isNan := by
  cases v <;> rfl

theorem round3F_fix_sub (x y : RFloat) (hx : x.round3F = x) (hy : y.round3F = y) :
    (x.sub y).round3F = x.sub y := by
  cases x with
  | nan => cases y <;> rfl
  | inf b =>
    cases y with
    | nan => rfl
    | inf c =>
      by_cases h : b = c <;> simp [RFloat.sub, h, RFloat.round3F]
    | fin q => rfl
  | fin a =>
    cases y with
    | nan => rfl
    | inf c => rfl
    | fin q =>
      simp only [RFloat.sub, RFloat.round3F, RFloat.fin.injEq] at hx hy ⊢
      exact round3_fix_sub a q hx hy

theorem length_rollingSumSeries (w : ℕ) (xs : List ℚ) :
    (rollingSumSeries w xs).length = xs.length := by
  simp [rollingSumSeries]

theorem getElem?_rollingSumSeries (w : ℕ) (xs : List ℚ) (i : ℕ) (h : i < xs.length) :
    (rollingSumSeries w xs)[i]? = some (trailingSum w xs i) := by
  simp [rollingSumSeries, List.getElem?_map, List.getElem?_range h]

theorem length_rollingWoba (w : ℕ) (pa : List Event) :
    (rollingWoba w pa).length = pa.length := by
  simp [rollingWoba, rollingSumSeries]

theorem length_rollingXwoba (w : ℕ) (pa : List Event) :
    (rollingXwoba w pa).length = pa.length := by
  simp [rollingXwoba, rollingSumSeries]

theorem length_rollingDiff (w : ℕ) (pa : List Event) :
    (rollingDiff w pa).length = pa.length := by
  simp [rollingDiff, length_rollingWoba, length_rollingXwoba]

theorem getElem?_rollingWoba (w : ℕ) (pa : List Event) (i : ℕ) (h : i < pa.length) :
    (rollingWoba w pa)[i]? =
      some (fdiv (trailingSum w (pa.map wobaVal) i) (trailingSum w (pa.map wobaDen) i)) := by
  rw [rollingWoba, List.getElem?_zipWith,
    getElem?_rollingSumSeries w _ i (by simpa using h),
    getElem?_rollingSumSeries w _ i (by simpa using h)]

theorem getElem?_rollingXwoba (w : ℕ) (pa : List Event) (i : ℕ) (h : i < pa.length) :
    (rollingXwoba w pa)[i]? =
      some (fdiv (trailingSum w (pa.map xwobaVal) i) (trailingSum w (pa.map wobaDen) i)) := by
  rw [rollingXwoba, List.getElem?_zipWith,
    getElem?_rollingSumSeries w _ i (by simpa using h),
    getElem?_rollingSumSeries w _ i (by simpa using h)]

theorem getElem?_rollingDiff (w : ℕ) (pa : List Event) (i : ℕ) (h : i < pa.length) :
    (rollingDiff w pa)[i]? =
      some ((fdiv (trailingSum w (pa.map wobaVal) i) (trailingSum w (pa.map wobaDen) i)).sub
        (fdiv (trailingSum w (pa.map xwobaVal) i) (trailingSum w (pa.map wobaDen) i))) := by
  rw [rollingDiff, List.getElem?_zipWith, getElem?_rollingWoba w pa i h,
    getElem?_rollingXwoba w pa i h]

theorem trailingSum_last (w : ℕ) (f : Event → ℚ) (pa : List Event)
    (hw : 0 < w) (hwn : w ≤ pa.length) :
    trailingSum w (pa.map f) (pa.length - 1) =
      some (((pa.drop (pa.length - w)).map f).sum) := by
  have hpos : 0 < pa.length := lt_of_lt_of_le hw hwn
  have hn : pa.length - 1 + 1 = pa.length := Nat.sub_add_cancel hpos
  unfold trailingSum
  rw [if_pos (by omega)]
  congr 1
  rw [hn, List.take_of_length_le (by simp), List.map_drop]

theorem latestOf_some_iff (s : List RFloat) (v : RFloat) :
    latestOf s = some v ↔ s.getLast? = some v ∧ v.isNan = false := by
  unfold latestOf
  cases h : s.getLast? with
  | none => simp
  | some u =>
    show (if u.isNan then none else some u) = some v ↔ some u = some v ∧ v.isNan = false
    by_cases hu : u.isNan = true
    · rw [if_pos hu]
      constructor
      · intro hh; cases hh
      · rintro ⟨hh, hv⟩
        rw [Option.some_inj] at hh
        subst hh
        rw [hu] at hv
        cases hv
    · rw [if_neg hu]
      constructor
      · intro hh
        rw [Option.some_inj] at hh
        subst hh
        exact ⟨rfl, Bool.eq_false_iff.mpr hu⟩
      · rintro ⟨hh, h2⟩
        exact hh

theorem windowResult_woba (w : ℕ) (pa : List Event) :
    (windowResult w pa).rolling_woba = (latestOf (rollingWoba w pa)).map RFloat.round3F := rfl

theorem windowResult_xwoba (w : ℕ) (pa : List Event) :
    (windowResult w pa).rolling_xwoba = (latestOf (rollingXwoba w pa)).map RFloat.round3F := rfl

theorem windowResult_diff (w : ℕ) (pa : List Event) :
    (windowResult w pa).diff_rolling_OBA = (latestOf (rollingDiff w pa)).map RFloat.round3F := rfl

theorem windowResult_trend_woba (w : ℕ) (pa : List Event) :
    (windowResult w pa).trend_woba = trendSample (rollingWoba w pa) := rfl

theorem windowResult_trend_xwoba (w : ℕ) (pa : List Event) :
    (windowResult w pa).trend_xwoba =
      (if TREND_POINTS ≤ ((rollingWoba w pa).filter (fun v => !v.isNan)).length then
        (List.range TREND_POINTS).map
          (fun i => (((rollingXwoba w pa).filter (fun v => !v.isNan)).getD
            (sampleIdx ((rollingWoba w pa).filter (fun v => !v.isNan)).length i)
            RFloat.nan).round3F)
      else ((rollingXwoba w pa).filter (fun v => !v.isNan)).map RFloat.round3F) := rfl

theorem windowResult_trend_diff (w : ℕ) (pa : List Event) :
    (windowResult w pa).trend_diff =
      (List.range (windowResult w pa).trend_woba.length).map
        (fun i => (((windowResult w pa).trend_woba.getD i RFloat.nan).sub
          ((windowResult w pa).trend_xwoba.getD i RFloat.nan)).round3F) := rfl

theorem sampleIdx_zero (L : ℕ) : sampleIdx L 0 = 0 := by
  simp [sampleIdx]

theorem sampleIdx_last (L : ℕ) : sampleIdx L (TREND_POINTS - 1) = L - 1 := by
  simp [sampleIdx, TREND_POINTS]

theorem sampleIdx_lt (L i : ℕ) (hL : 0 < L) (hi : i < TREND_POINTS) :
    sampleIdx L i < L := by
  unfold sampleIdx TREND_POINTS at *
  have h1 : i * (L - 1) ≤ 19 * (L - 1) := Nat.mul_le_mul_right _ (by omega)
  have h2 : i * (L - 1) / 19 ≤ 19 * (L - 1) / 19 := Nat.div_le_div_right h1
  have h3 : 19 * (L - 1) / 19 = L - 1 := Nat.mul_div_cancel_left _ (by norm_num)
  omega

theorem sampleIdx_self (i : ℕ) : sampleIdx TREND_POINTS i = i := by
  unfold sampleIdx TREND_POINTS
  omega

theorem trendSample_length (s : List RFloat) :
    (trendSample s).length = min TREND_POINTS (s.filter (fun v => !v.isNan)).length := by
  unfold trendSample
  by_cases h : TREND_POINTS ≤ (s.filter (fun v => !v.isNan)).length
  · rw [if_pos h]
    simp [Nat.min_eq_left h]
  · rw [if_neg h]
    simp [Nat.min_eq_right (le_of_not_le h)]

theorem mem_trendSample_fixed (s : List RFloat) :
    ∀ x ∈ trendSample s, x.round3F = x := by
  unfold trendSample
  by_cases h : TREND_POINTS ≤ (s.filter (fun v => !v.isNan)).length
  · rw [if_pos h]
    intro x hx
    obtain ⟨i, _, rfl⟩ := List.mem_map.mp hx
    exact round3F_round3F _
  · rw [if_neg h]
    intro x hx
    obtain ⟨v, _, rfl⟩ := List.mem_map.mp hx
    exact round3F_round3F _

theorem mem_trendSample_not_nan (s : List RFloat) :
    ∀ x ∈ trendSample s, x.isNan = false := by
  unfold trendSample
  by_cases h : TREND_POINTS ≤ (s.filter (fun v => !v.isNan)).length
  · rw [if_pos h]
    intro x hx
    obtain ⟨i, hi, rfl⟩ := List.mem_map.mp hx
    have hlt : sampleIdx (s.filter (fun v => !v.isNan)).length i <
        (s.filter (fun v => !v.isNan)).length := by
      apply sampleIdx_lt _ _ (lt_of_lt_of_le (by decide : 0 < TREND_POINTS) h)
      simpa using List.mem_range.mp hi
    rw [round3F_isNan, List.getD_eq_getElem _ _ hlt]
    have hmem := List.getElem_mem hlt
    have := (List.mem_filter.mp hmem).2
    simpa using this
  · rw [if_neg h]
    intro x hx
    obtain ⟨v, hv, rfl⟩ := List.mem_map.mp hx
    rw [round3F_isNan]
    have := (List.mem_filter.mp hv).2
    simpa using this

theorem trendSample_idem (s : List RFloat) :
    trendSample (trendSample s) = trendSample s := by
  have hnn := mem_trendSample_not_nan s
  have hfix := mem_trendSample_fixed s
  have hfilter : (trendSample s).filter (fun v => !v.isNan) = trendSample s := by
    apply List.filter_eq_self.mpr
    intro a ha
    simp [hnn a ha]
  conv_lhs => rw [trendSample]
  rw [hfilter]
  by_cases h : TREND_POINTS ≤ (trendSample s).length
  · rw [if_pos h]
    have hlen : (trendSample s).length = TREND_POINTS := by
      have := trendSample_length s
      omega
    apply List.ext_getElem
    · simp [hlen]
    · intro n h1 h2
      rw [List.getElem_map]
      rw [List.getElem_range]
      have hn : n < TREND_POINTS := by simpa using h1
      rw [hlen, sampleIdx_self, List.getD_eq_getElem _ _ (by omega)]
      exact hfix _ (List.getElem_mem _)
  · rw [if_neg h]
    have : ∀ a ∈ trendSample s, a.round3F = id a := by
      intro a ha
      simpa using hfix a ha
    rw [List.map_congr_left this, List.map_id]

theorem blt_asymm (x y : RFloat) (h : RFloat.blt x y = true) : RFloat.blt y x = false := by
  cases x with
  | nan => simp [RFloat.blt] at h
  | inf b =>
    cases y with
    | nan => simp [RFloat.blt] at h
    | inf c => cases b <;> cases c <;> simp_all [RFloat.blt]
    | fin q => cases b <;> simp_all [RFloat.blt]
  | fin a =>
    cases y with
    | nan => simp [RFloat.blt] at h
    | inf c => cases c <;> simp_all [RFloat.blt]
    | fin q =>
      simp [RFloat.blt] at h ⊢
      exact h.le

theorem blt_cotrans (x y z : RFloat) (hy : y.isNan = false) (h : RFloat.blt x z = true) :
    RFloat.blt x y = true ∨ RFloat.blt y z = true := by
  cases y with
  | nan => simp [RFloat.isNan] at hy
  | inf d =>
    cases x with
    | nan => simp [RFloat.blt] at h
    | inf b =>
      cases z with
      | nan => simp [RFloat.blt] at h
      | inf c => cases b <;> cases c <;> cases d <;> simp_all [RFloat.blt]
      | fin q => cases b <;> cases d <;> simp_all [RFloat.blt]
    | fin a =>
      cases z with
      | nan => simp [RFloat.blt] at h
      | inf c => cases c <;> cases d <;> simp_all [RFloat.blt]
      | fin q => cases d <;> simp_all [RFloat.blt]
  | fin p =>
    cases x with
    | nan => simp [RFloat.blt] at h
    | inf b =>
      cases z with
      | nan => simp [RFloat.blt] at h
      | inf c => cases b <;> cases c <;> simp_all [RFloat.blt]
      | fin q => cases b <;> simp_all [RFloat.blt]
    | fin a =>
      cases z with
      | nan => simp [RFloat.blt] at h
      | inf c => cases c <;> simp_all [RFloat.blt]
      | fin q =>
        simp [RFloat.blt] at h ⊢
        rcases lt_or_le a p with h1 | h1
        · exact Or.inl h1
        · exact Or.inr (lt_of_le_of_lt h1 h)

theorem lookup_forall {β : Type} (pred : β → Prop) (k : ℕ) (l : List (ℕ × β)) (v : β)
    (hl : ∀ p ∈ l, pred p.2) (h : l.lookup k = some v) : pred v := by
  induction l with
  | nil => cases h
  | cons p ps ih =>
    rw [show p = (p.1, p.2) from rfl, List.lookup_cons] at h
    by_cases hk : k == p.1
    · rw [hk] at h
      simp only at h
      rw [Option.some_inj] at h
      subst h
      exact hl p (List.mem_cons_self p ps)
    · rw [Bool.eq_false_iff.mpr hk] at h
      simp only at h
      exact ih (fun q hq => hl q (List.mem_cons_of_mem p hq)) h

theorem rollingResults_eq_some (windows : List ℕ) (minPA : ℕ) (df : List Event) (b : ℤ)
    (br : BatterResult) (h : rollingResults windows minPA df b = some br) :
    br.total_pa = (batterSeq df b).length ∧
    br.windows = (windows.filter (fun w => decide (w ≤ (batterSeq df b).length))).map
      (fun w => (w, windowResult w (batterSeq df b))) := by
  unfold rollingResults batterResult at h
  by_cases h1 : (batterSeq df b).length < minPA
  · rw [if_pos h1] at h
    cases h
  · rw [if_neg h1] at h
    by_cases h2 : ((windows.filter (fun w => decide (w ≤ (batterSeq df b).length))).map
        (fun w => (w, windowResult w (batterSeq df b)))).isEmpty = true
    · rw [if_pos h2] at h
      cases h
    · rw [if_neg h2] at h
      rw [Option.some_inj] at h
      subst h
      exact ⟨rfl, rfl⟩

theorem windowResult_diff_not_nan (w : ℕ) (pa : List Event) (d : RFloat)
    (h : (windowResult w pa).diff_rolling_OBA = some d) : d.isNan = false := by
  rw [windowResult_diff] at h
  obtain ⟨v, hv, rfl⟩ := Option.map_eq_some'.mp h
  rw [round3F_isNan]
  exact ((latestOf_some_iff _ _).mp hv).2

theorem selectPrimary_not_nan (br : BatterResult)
    (hwr : ∀ p ∈ br.windows, ∀ d, p.2.diff_rolling_OBA = some d → d.isNan = false)
    (d : RFloat) (h : selectPrimary br = some d) : d.isNan = false := by
  obtain ⟨w, _, hf⟩ := List.exists_of_findSome?_eq_some h
  cases hl : br.windows.lookup w with
  | none =>
    rw [hl] at hf
    cases hf
  | some wr =>
    rw [hl] at hf
    exact lookup_forall (fun wr => ∀ d, wr.diff_rolling_OBA = some d → d.isNan = false)
      w br.windows wr (fun p hp => hwr p hp) hl d hf

theorem buildPlayer_eq (ev? : Option (List EVRow)) (rolling : ℤ → Option BatterResult)
    (teamMap : ℤ → Option String) (row : SeasonRow) (h : ¬ row.pa < MIN_PA) :
    buildPlayer ev? rolling teamMap row = some
      { player_id := row.player_id
        name := parseName row.name_raw
        team := (teamMap row.player_id).getD ""
        pa := row.pa
        batting_avg := row.ba.map round3
        wOBA := row.woba.map round3
        xwOBA := row.est_woba.map round3
        diff_season := row.est_woba_minus_woba_diff.map round3
        xBA := row.est_ba.map round3
        xSLG := row.est_slg.map round3
        ev := (ev?.bind (fun l => l.find? (fun r => r.player_id == row.player_id))).map mkEVStats
        rolling := rolling row.player_id
        diff_rolling_OBA :=
          match (rolling row.player_id).bind selectPrimary with
          | some d => d
          | none =>
            match row.est_woba_minus_woba_diff with
            | some sd => RFloat.fin (round3 (-sd))
            | none => RFloat.fin 0 } := by
  unfold buildPlayer
  rw [if_neg h]

theorem buildPlayer_diff_not_nan (ev? : Option (List EVRow)) (windows : List ℕ) (minPA : ℕ)
    (pitch : List Event) (teamMap : ℤ → Option String) (row : SeasonRow) (p : Player)
    (h : buildPlayer ev? (rollingResults windows minPA pitch) teamMap row = some p) :
    p.diff_rolling_OBA.isNan = false := by
  by_cases hpa : row.pa < MIN_PA
  · unfold buildPlayer at h
    rw [if_pos hpa] at h
    cases h
  · rw [buildPlayer_eq _ _ _ _ hpa, Option.some_inj] at h
    subst h
    simp only
    cases hsel : (rollingResults windows minPA pitch row.player_id).bind selectPrimary with
    | some d =>
      obtain ⟨br, hbr, hsp⟩ := Option.bind_eq_some.mp hsel
      have hwr : ∀ q ∈ br.windows, ∀ d', q.2.diff_rolling_OBA = some d' → d'.isNan = false := by
        intro q hq d' hd'
        rw [(rollingResults_eq_some windows minPA pitch row.player_id br hbr).2] at hq
        obtain ⟨w, _, rfl⟩ := List.mem_map.mp hq
        exact windowResult_diff_not_nan _ _ _ hd'
      exact selectPrimary_not_nan br hwr d hsp
    | none =>
      cases row.est_woba_minus_woba_diff <;> simp [RFloat.isNan]

theorem fdiv_eq_fin (a b : ℚ) (hb : b ≠ 0) : fdiv (some a) (some b) = RFloat.fin (a / b) := by
  simp [fdiv, hb]

theorem latestOf_rollingDiff_formula (w : ℕ) (pa : List Event) (hw : 0 < w)
    (hwn : w ≤ pa.length)
    (hden : ((pa.drop (pa.length - w)).map wobaDen).sum ≠ 0) :
    latestOf (rollingDiff w pa) = some (RFloat.fin
      (((pa.drop (pa.length - w)).map wobaVal).sum /
          ((pa.drop (pa.length - w)).map wobaDen).sum -
        ((pa.drop (pa.length - w)).map xwobaVal).sum /
          ((pa.drop (pa.length - w)).map wobaDen).sum)) := by
  have hpos : 0 < pa.length := lt_of_lt_of_le hw hwn
  have hidx : pa.length - 1 < pa.length := by omega
  have hlast : (rollingDiff w pa).getLast? = some
      ((fdiv (some (((pa.drop (pa.length - w)).map wobaVal).sum))
          (some (((pa.drop (pa.length - w)).map wobaDen).sum))).sub
        (fdiv (some (((pa.drop (pa.length - w)).map xwobaVal).sum))
          (some (((pa.drop (pa.length - w)).map wobaDen).sum)))) := by
    rw [List.getLast?_eq_getElem?, length_rollingDiff,
      getElem?_rollingDiff w pa _ hidx,
      trailingSum_last w wobaVal pa hw hwn,
      trailingSum_last w wobaDen pa hw hwn,
      trailingSum_last w xwobaVal pa hw hwn]
  rw [latestOf, hlast, fdiv_eq_fin _ _ hden, fdiv_eq_fin _ _ hden]
  simp [RFloat.sub, RFloat.isNan]

theorem rollingResults_lookup (df : List Event) (b : ℤ) (w : ℕ)
    (hw : w ∈ ROLLING_WINDOWS)
    (hmin : MIN_PA ≤ (batterSeq df b).length)
    (hwn : w ≤ (batterSeq df b).length) :
    ∃ br, rollingResults ROLLING_WINDOWS MIN_PA df b = some br ∧
      br.windows.lookup w = some (windowResult w (batterSeq df b)) := by
  have h50 : (50 : ℕ) ≤ (batterSeq df b).length := hmin
  have hnot : ¬ (batterSeq df b).length < MIN_PA := not_lt.mpr hmin
  have hfilter50 : (50 : ℕ) ∈ ROLLING_WINDOWS.filter
      (fun v => decide (v ≤ (batterSeq df b).length)) := by
    rw [List.mem_filter]
    exact ⟨by simp [ROLLING_WINDOWS], decide_eq_true h50⟩
  have hne : ¬ ((ROLLING_WINDOWS.filter (fun v => decide (v ≤ (batterSeq df b).length))).map
      (fun v => (v, windowResult v (batterSeq df b)))).isEmpty = true := by
    intro hempty
    rw [List.isEmpty_iff, List.map_eq_nil_iff] at hempty
    rw [hempty] at hfilter50
    cases hfilter50
  refine ⟨_, by rw [rollingResults, batterResult, if_neg hnot, if_neg hne], ?_⟩
  rw [ROLLING_WINDOWS, List.mem_cons, List.mem_cons, List.mem_singleton] at hw
  have e50 : ROLLING_WINDOWS.filter (fun v => decide (v ≤ (batterSeq df b).length)) =
      50 :: [100, 250].filter (fun v => decide (v ≤ (batterSeq df b).length)) := by
    rw [ROLLING_WINDOWS]
    simp [List.filter_cons, decide_eq_true h50]
  rcases hw with rfl | rfl | rfl
  · rw [e50]
    simp [List.lookup]
  · have e100 : ([100, 250] : List ℕ).filter (fun v => decide (v ≤ (batterSeq df b).length)) =
        100 :: [250].filter (fun v => decide (v ≤ (batterSeq df b).length)) := by
      simp [List.filter_cons, decide_eq_true hwn]
    rw [e50, e100]
    simp [List.lookup]
  · have e100 : ([100, 250] : List ℕ).filter (fun v => decide (v ≤ (batterSeq df b).length)) =
        100 :: [250].filter (fun v => decide (v ≤ (batterSeq df b).length)) := by
      simp [List.filter_cons, decide_eq_true (le_trans (by norm_num : (100:ℕ) ≤ 250) hwn)]
    have e250 : ([250] : List ℕ).filter (fun v => decide (v ≤ (batterSeq df b).length)) = [250] := by
      simp [List.filter_cons, decide_eq_true hwn]
    rw [e50, e100, e250]
    simp [List.lookup]

/-- C1: for every batter whose ordered qualifying-event sequence has at
least `MIN_PA` events, and every configured window `w ≤` that count whose
trailing weight sum is nonzero, the batter appears in the rolling results
with a block for `w`, and the headline rolling differential (the value at
the final position) equals (sum of `woba_value` over the last `w` events ÷
sum of `woba_denom` over the last `w` events) − (sum of `xwoba_value` over
the last `w` events ÷ the same weight sum), over exactly the last `w`
events of the (game date, at-bat number) ascending sequence, where
`xwoba_value` falls back to `woba_value` when the estimate is absent; the
stored headline is that value rounded to 3 decimals. -/
theorem c1_headline_rolling_differential (df : List Event) (b : ℤ) (w : ℕ)
    (hw : w ∈ ROLLING_WINDOWS)
    (hmin : MIN_PA ≤ (batterSeq df b).length)
    (hwn : w ≤ (batterSeq df b).length)
    (hden : (((batterSeq df b).drop ((batterSeq df b).length - w)).map wobaDen).sum ≠ 0) :
    ∃ br, rollingResults ROLLING_WINDOWS MIN_PA df b = some br ∧
      br.windows.lookup w = some (windowResult w (batterSeq df b)) ∧
      ((batterSeq df b).drop ((batterSeq df b).length - w)).length = w ∧
      latestOf (rollingDiff w (batterSeq df b)) = some (RFloat.fin
        ((((batterSeq df b).drop ((batterSeq df b).length - w)).map wobaVal).sum /
            (((batterSeq df b).drop ((batterSeq df b).length - w)).map wobaDen).sum -
          (((batterSeq df b).drop ((batterSeq df b).length - w)).map xwobaVal).sum /
            (((batterSeq df b).drop ((batterSeq df b).length - w)).map wobaDen).sum)) ∧
      (windowResult w (batterSeq df b)).diff_rolling_OBA = some (RFloat.fin (round3
        ((((batterSeq df b).drop ((batterSeq df b).length - w)).map wobaVal).sum /
            (((batterSeq df b).drop ((batterSeq df b).length - w)).map wobaDen).sum -
          (((batterSeq df b).drop ((batterSeq df b).length - w)).map xwobaVal).sum /
            (((batterSeq df b).drop ((batterSeq df b).length - w)).map wobaDen).sum))) := by
  have hw' : w = 50 ∨ w = 100 ∨ w = 250 := by simpa [ROLLING_WINDOWS] using hw
  have hw0 : 0 < w := by rcases hw' with rfl | rfl | rfl <;> norm_num
  obtain ⟨br, hbr, hlookup⟩ := rollingResults_lookup df b w hw hmin hwn
  have hlat := latestOf_rollingDiff_formula w (batterSeq df b) hw0 hwn hden
  refine ⟨br, hbr, hlookup, ?_, hlat, ?_⟩
  · rw [List.length_drop]
    omega
  · rw [windowResult_diff, hlat]
    simp [RFloat.round3F]

/-- Witness for C1 at `dfC1` (batter 1, 50 events, window 50). -/
theorem c1_headline_rolling_differential_witness :
    (((batterSeq dfC1 1).drop ((batterSeq dfC1 1).length - 50)).map wobaDen).sum ≠ 0 ∧
    (∃ br, rollingResults ROLLING_WINDOWS MIN_PA dfC1 1 = some br ∧
      br.windows.lookup 50 = some (windowResult 50 (batterSeq dfC1 1)) ∧
      ((batterSeq dfC1 1).drop ((batterSeq dfC1 1).length - 50)).length = 50 ∧
      latestOf (rollingDiff 50 (batterSeq dfC1 1)) = some (RFloat.fin
        ((((batterSeq dfC1 1).drop ((batterSeq dfC1 1).length - 50)).map wobaVal).sum /
            (((batterSeq dfC1 1).drop ((batterSeq dfC1 1).length - 50)).map wobaDen).sum -
          (((batterSeq dfC1 1).drop ((batterSeq dfC1 1).length - 50)).map xwobaVal).sum /
            (((batterSeq dfC1 1).drop ((batterSeq dfC1 1).length - 50)).map wobaDen).sum)) ∧
      (windowResult 50 (batterSeq dfC1 1)).diff_rolling_OBA = some (RFloat.fin (round3
        ((((batterSeq dfC1 1).drop ((batterSeq dfC1 1).length - 50)).map wobaVal).sum /
            (((batterSeq dfC1 1).drop ((batterSeq dfC1 1).length - 50)).map wobaDen).sum -
          (((batterSeq dfC1 1).drop ((batterSeq dfC1 1).length - 50)).map xwobaVal).sum /
            (((batterSeq dfC1 1).drop ((batterSeq dfC1 1).length - 50)).map wobaDen).sum)))) :=
  ⟨by with_unfolding_all decide,
    c1_headline_rolling_differential dfC1 1 50 (by decide)
      (by with_unfolding_all decide) (by with_unfolding_all decide)
      (by with_unfolding_all decide)⟩

theorem windowResult_trend_xwoba_fixed (w : ℕ) (pa : List Event) :
    ∀ x ∈ (windowResult w pa).trend_xwoba, x.round3F = x := by
  rw [windowResult_trend_xwoba]
  by_cases h : TREND_POINTS ≤ ((rollingWoba w pa).filter (fun v => !v.isNan)).length
  · rw [if_pos h]
    intro x hx
    obtain ⟨i, _, rfl⟩ := List.mem_map.mp hx
    exact round3F_round3F _
  · rw [if_neg h]
    intro x hx
    obtain ⟨v, _, rfl⟩ := List.mem_map.mp hx
    exact round3F_round3F _

/-- C2 counterexample: on a 30-value rolling series (all positions
defined), the sampler selects the value at index 1 for sample 1 — the
fractional index 29/19 ≈ 1.53 is truncated — whereas the claimed
nearest-index rounding selects index 2, so the produced sequences
differ. -/
theorem c2_counterexample :
    TREND_POINTS ≤ (seriesC2.filter (fun v => !v.isNan)).length ∧
    (trendSample seriesC2)[1]? = some (RFloat.fin 1) ∧
    (specTrendSample seriesC2)[1]? = some (RFloat.fin 2) ∧
    trendSample seriesC2 ≠ specTrendSample seriesC2 := by
  with_unfolding_all decide

/-- C2 (amended): the sampler returns exactly
`min TREND_POINTS (defined count)` values; with at least `TREND_POINTS`
defined positions it samples `TREND_POINTS` indices evenly spaced across
the defined sub-sequence, inclusive of the first and last defined
position, each fractional index truncated (floor) — not rounded to
nearest — and each within bounds; with fewer defined positions it returns
all of them in order (rounded to 3 decimals); with zero it returns the
empty sequence. -/
theorem c2_trend_sampler_amended (s : List RFloat) :
    (trendSample s).length = min TREND_POINTS ((s.filter (fun v => !v.isNan)).length) ∧
    (TREND_POINTS ≤ (s.filter (fun v => !v.isNan)).length →
      (∀ i, i < TREND_POINTS →
        (trendSample s)[i]? = some (((s.filter (fun v => !v.isNan)).getD
          (sampleIdx ((s.filter (fun v => !v.isNan)).length) i) RFloat.nan).round3F)) ∧
      (trendSample s).head? = some (((s.filter (fun v => !v.isNan)).getD 0 RFloat.nan).round3F) ∧
      (trendSample s).getLast? = some (((s.filter (fun v => !v.isNan)).getD
        ((s.filter (fun v => !v.isNan)).length - 1) RFloat.nan).round3F) ∧
      (∀ i, i < TREND_POINTS → sampleIdx ((s.filter (fun v => !v.isNan)).length) i <
        (s.filter (fun v => !v.isNan)).length)) ∧
    ((s.filter (fun v => !v.isNan)).length < TREND_POINTS →
      trendSample s = (s.filter (fun v => !v.isNan)).map RFloat.round3F) := by
  refine ⟨trendSample_length s, ?_, ?_⟩
  · intro h
    have hget : ∀ i, i < TREND_POINTS →
        (trendSample s)[i]? = some (((s.filter (fun v => !v.isNan)).getD
          (sampleIdx ((s.filter (fun v => !v.isNan)).length) i) RFloat.nan).round3F) := by
      intro i hi
      rw [trendSample, if_pos h, List.getElem?_map, List.getElem?_range hi]
      rfl
    refine ⟨hget, ?_, ?_, ?_⟩
    · rw [List.head?_eq_getElem?, hget 0 (by decide), sampleIdx_zero]
    · have hlen : (trendSample s).length = TREND_POINTS := by
        rw [trendSample_length s, Nat.min_eq_left h]
      rw [List.getLast?_eq_getElem?, hlen,
        hget (TREND_POINTS - 1) (by decide), sampleIdx_last]
    · intro i hi
      exact sampleIdx_lt _ _ (lt_of_lt_of_le (by decide) h) hi
  · intro h
    rw [trendSample, if_neg (not_le.mpr h)]

/-- Witness for the amended C2 at the 30-value series `seriesC2`. -/
theorem c2_trend_sampler_amended_witness :
    (trendSample seriesC2).length =
      min TREND_POINTS ((seriesC2.filter (fun v => !v.isNan)).length) ∧
    (trendSample seriesC2).head? = some (((seriesC2.filter (fun v => !v.isNan)).getD 0
      RFloat.nan).round3F) ∧
    (trendSample seriesC2).getLast? = some (((seriesC2.filter (fun v => !v.isNan)).getD
      ((seriesC2.filter (fun v => !v.isNan)).length - 1) RFloat.nan).round3F) :=
  ⟨(c2_trend_sampler_amended seriesC2).1,
    ((c2_trend_sampler_amended seriesC2).2.1 (by with_unfolding_all decide)).2.1,
    ((c2_trend_sampler_amended seriesC2).2.1 (by with_unfolding_all decide)).2.2.1⟩

/-- C9: trend sampling is deterministic and idempotent — resampling a
sampled series returns it unchanged — and for every window result the
realized trend is the sampled realized series, the differential trend has
the realized trend's length, and at every position the differential trend
value equals realized trend value minus expected trend value (the rounding
of the difference of already-rounded values changes nothing). -/
theorem c9_trend_idempotent_and_elementwise :
    (∀ s : List RFloat, trendSample (trendSample s) = trendSample s) ∧
    (∀ (w : ℕ) (pa : List Event),
      (windowResult w pa).trend_woba = trendSample (rollingWoba w pa) ∧
      (windowResult w pa).trend_diff.length = (windowResult w pa).trend_woba.length ∧
      (∀ i, i < (windowResult w pa).trend_diff.length →
        (windowResult w pa).trend_diff.getD i RFloat.nan =
          ((windowResult w pa).trend_woba.getD i RFloat.nan).sub
            ((windowResult w pa).trend_xwoba.getD i RFloat.nan))) := by
  refine ⟨trendSample_idem, ?_⟩
  intro w pa
  have hlen : (windowResult w pa).trend_diff.length = (windowResult w pa).trend_woba.length := by
    rw [windowResult_trend_diff, List.length_map, List.length_range]
  refine ⟨windowResult_trend_woba w pa, hlen, ?_⟩
  intro i hi
  have hiw : i < (windowResult w pa).trend_woba.length := by omega
  have hdiff : (windowResult w pa).trend_diff.getD i RFloat.nan =
      (((windowResult w pa).trend_woba.getD i RFloat.nan).sub
        ((windowResult w pa).trend_xwoba.getD i RFloat.nan)).round3F := by
    rw [windowResult_trend_diff,
      List.getD_eq_getElem _ _ (by simpa [windowResult_trend_diff] using hi),
      List.getElem_map, List.getElem_range]
  rw [hdiff]
  apply round3F_fix_sub
  · rw [List.getD_eq_getElem _ _ hiw]
    apply mem_trendSample_fixed (rollingWoba w pa)
    rw [← windowResult_trend_woba w pa]
    exact List.getElem_mem _
  · by_cases hx : i < (windowResult w pa).trend_xwoba.length
    · rw [List.getD_eq_getElem _ _ hx]
      exact windowResult_trend_xwoba_fixed w pa _ (List.getElem_mem _)
    · rw [List.getD_eq_default _ _ (by omega)]
      rfl

/-- Witness for C9: idempotence at `seriesC2` and the elementwise law at
position 0 of the 50-window of `dfC1`. -/
theorem c9_trend_idempotent_and_elementwise_witness :
    trendSample (trendSample seriesC2) = trendSample seriesC2 ∧
    (windowResult 50 (batterSeq dfC1 1)).trend_diff.getD 0 RFloat.nan =
      ((windowResult 50 (batterSeq dfC1 1)).trend_woba.getD 0 RFloat.nan).sub
        ((windowResult 50 (batterSeq dfC1 1)).trend_xwoba.getD 0 RFloat.nan) :=
  ⟨c9_trend_idempotent_and_elementwise.1 seriesC2,
    (c9_trend_idempotent_and_elementwise.2 50 (batterSeq dfC1 1)).2.2 0
      (by with_unfolding_all decide)⟩

/-- C3: the primary differential is selected by checking windows in the
fixed preference order 100, 50, 250 and taking the first defined headline
differential: window 100's defined differential wins even when window 50's
is also defined; a window present with an undefined differential is
skipped in favor of the next in the order; and a merged record built with
a selected differential carries exactly it. -/
theorem c3_primary_selection_order (br : BatterResult) :
    (∀ d, (br.windows.lookup 100).bind (fun wr => wr.diff_rolling_OBA) = some d →
      selectPrimary br = some d) ∧
    ((br.windows.lookup 100).bind (fun wr => wr.diff_rolling_OBA) = none →
      ∀ d, (br.windows.lookup 50).bind (fun wr => wr.diff_rolling_OBA) = some d →
        selectPrimary br = some d) ∧
    ((br.windows.lookup 100).bind (fun wr => wr.diff_rolling_OBA) = none →
      (br.windows.lookup 50).bind (fun wr => wr.diff_rolling_OBA) = none →
      selectPrimary br = (br.windows.lookup 250).bind (fun wr => wr.diff_rolling_OBA)) ∧
    (∀ (ev? : Option (List EVRow)) (rolling : ℤ → Option BatterResult)
        (teamMap : ℤ → Option String) (row : SeasonRow) (d : RFloat),
      ¬ row.pa < MIN_PA → rolling row.player_id = some br → selectPrimary br = some d →
      ∃ p, buildPlayer ev? rolling teamMap row = some p ∧ p.diff_rolling_OBA = d) := by
  refine ⟨?_, ?_, ?_, ?_⟩
  · intro d h
    simp [selectPrimary, List.findSome?_cons, h]
  · intro h1 d h
    simp [selectPrimary, List.findSome?_cons, h1, h]
  · intro h1 h2
    simp only [selectPrimary, List.findSome?_cons, h1, h2]
    cases h250 : (br.windows.lookup 250).bind (fun wr => wr.diff_rolling_OBA) <;>
      simp [h250]
  · intro ev? rolling teamMap row d hpa hroll hsel
    rw [buildPlayer_eq _ _ _ _ hpa]
    refine ⟨_, rfl, ?_⟩
    simp only [hroll, Option.some_bind, hsel]

/-- Witness for C3: with windows 50 and 100 both defined, window 100's
value (0.005) wins over window 50's (0.007); with window 100 present but
undefined, window 50's value is selected; a built record carries the
selected value. -/
theorem c3_primary_selection_order_witness :
    selectPrimary brBoth = some (RFloat.fin (5/1000)) ∧
    selectPrimary brSkip = some (RFloat.fin (7/1000)) ∧
    (∃ p, buildPlayer none (fun _ => some brBoth) (fun _ => none) rowFull = some p ∧
      p.diff_rolling_OBA = RFloat.fin (5/1000)) :=
  ⟨(c3_primary_selection_order brBoth).1 _ (by with_unfolding_all decide),
    (c3_primary_selection_order brSkip).2.1 (by with_unfolding_all decide) _
      (by with_unfolding_all decide),
    (c3_primary_selection_order brBoth).2.2.2 none (fun _ => some brBoth) (fun _ => none)
      rowFull _ (by decide) rfl
      ((c3_primary_selection_order brBoth).1 _ (by with_unfolding_all decide))⟩

/-- C4: when no rolling differential is selected (no rolling result, or
every window's headline differential undefined), the primary differential
is the negation of the provider's season differential (which uses the
expected−realized sign convention) rounded to 3 places, and exactly 0 when
that is also undefined. -/
theorem c4_season_fallback (ev? : Option (List EVRow)) (rolling : ℤ → Option BatterResult)
    (teamMap : ℤ → Option String) (row : SeasonRow)
    (hpa : ¬ row.pa < MIN_PA)
    (hsel : (rolling row.player_id).bind selectPrimary = none) :
    (∀ sd, row.est_woba_minus_woba_diff = some sd →
      ∃ p, buildPlayer ev? rolling teamMap row = some p ∧
        p.diff_rolling_OBA = RFloat.fin (round3 (-sd))) ∧
    (row.est_woba_minus_woba_diff = none →
      ∃ p, buildPlayer ev? rolling teamMap row = some p ∧
        p.diff_rolling_OBA = RFloat.fin 0) := by
  constructor
  · intro sd hsd
    rw [buildPlayer_eq _ _ _ _ hpa]
    refine ⟨_, rfl, ?_⟩
    simp only [hsel, hsd]
  · intro hsd
    rw [buildPlayer_eq _ _ _ _ hpa]
    refine ⟨_, rfl, ?_⟩
    simp only [hsel, hsd]

/-- Witness for C4: a provider differential of +0.020 yields a primary
differential of −0.020 when no rolling data exists, and a missing provider
differential yields exactly 0. -/
theorem c4_season_fallback_witness :
    (∃ p, buildPlayer none (fun _ => none) (fun _ => none) rowFull = some p ∧
      p.diff_rolling_OBA = RFloat.fin (round3 (-(1/50)))) ∧
    (∃ p, buildPlayer none (fun _ => none) (fun _ => none) rowEmptyStats = some p ∧
      p.diff_rolling_OBA = RFloat.fin 0) ∧
    round3 (-(1/50)) = -(2/100) :=
  ⟨(c4_season_fallback none (fun _ => none) (fun _ => none) rowFull (by decide) rfl).1
      (1/50) rfl,
    (c4_season_fallback none (fun _ => none) (fun _ => none) rowEmptyStats (by decide) rfl).2
      rfl,
    by with_unfolding_all decide⟩

/-- C5: an entity with fewer than `MIN_PA` qualifying events is absent
from the rolling results; a season row with fewer than `MIN_PA` plate
appearances produces no merged record; and at the boundary an entity with
exactly `MIN_PA` qualifying events (window 50 being configured) has a
rolling result, and its season row with enough plate appearances yields a
record in the final output carrying that rolling result. -/
theorem c5_min_pa_threshold :
    (∀ (df : List Event) (b : ℤ), (batterSeq df b).length < MIN_PA →
      rollingResults ROLLING_WINDOWS MIN_PA df b = none) ∧
    (∀ (ev? : Option (List EVRow)) (rolling : ℤ → Option BatterResult)
        (teamMap : ℤ → Option String) (row : SeasonRow),
      row.pa < MIN_PA → buildPlayer ev? rolling teamMap row = none) ∧
    (∀ (pitch : List Event) (expected : List SeasonRow) (ev? : Option (List EVRow))
        (row : SeasonRow), row ∈ expected → ¬ row.pa < MIN_PA →
      (batterSeq pitch row.player_id).length = MIN_PA →
      ∃ p br, buildPlayer ev? (rollingResults ROLLING_WINDOWS MIN_PA pitch)
          (extractBatterTeams pitch) row = some p ∧
        p ∈ runPipeline expected ev? pitch ∧
        rollingResults ROLLING_WINDOWS MIN_PA pitch row.player_id = some br ∧
        p.rolling = some br) := by
  refine ⟨?_, ?_, ?_⟩
  · intro df b h
    rw [rollingResults, batterResult, if_pos h]
  · intro ev? rolling teamMap row h
    rw [buildPlayer, if_pos h]
  · intro pitch expected ev? row hrow hpa hn
    obtain ⟨br, hbr, _⟩ := rollingResults_lookup pitch row.player_id 50
      (by decide) (le_of_eq hn.symm) (le_of_eq hn.symm)
    refine ⟨_, br, buildPlayer_eq _ _ _ _ hpa, ?_, hbr, ?_⟩
    · rw [runPipeline, outputPlayers, mem_ssort]
      exact List.mem_filterMap.mpr ⟨row, hrow, buildPlayer_eq _ _ _ _ hpa⟩
    · simp only [hbr]

/-- Witness for C5: a 2-event batter is absent from the rolling results; a
49-PA season row builds no record; the 50-event batter of `dfC1` is
present in the output with its rolling block. -/
theorem c5_min_pa_threshold_witness :
    rollingResults ROLLING_WINDOWS MIN_PA dfC6 1 = none ∧
    buildPlayer none (fun _ => none) (fun _ => none) rowSmall = none ∧
    (∃ p br, buildPlayer none (rollingResults ROLLING_WINDOWS MIN_PA dfC1)
        (extractBatterTeams dfC1) rowFull = some p ∧
      p ∈ runPipeline [rowFull] none dfC1 ∧
      rollingResults ROLLING_WINDOWS MIN_PA dfC1 rowFull.player_id = some br ∧
      p.rolling = some br) :=
  ⟨c5_min_pa_threshold.1 dfC6 1 (by with_unfolding_all decide),
    c5_min_pa_threshold.2.1 none (fun _ => none) (fun _ => none) rowSmall (by decide),
    c5_min_pa_threshold.2.2 dfC1 [rowFull] none rowFull (List.mem_singleton.mpr rfl)
      (by decide) (by with_unfolding_all decide)⟩

/-- C6 counterexample: batter 1 has two same-date events, listed with
at-bat 5 before at-bat 2.  Under the (game date, at-bat number) ordering
the at-bat-5 event is last and its batting team is "NYY", but the
implementation sorts by game date alone — stable within a date — so the
lookup returns the at-bat-2 event's team "BOS". -/
theorem c6_counterexample :
    specTeamLookup dfC6 1 = some "NYY" ∧
    extractBatterTeams dfC6 1 = some "BOS" ∧
    extractBatterTeams dfC6 1 ≠ specTeamLookup dfC6 1 := by
  with_unfolding_all decide

/-- C6 (amended): the implementation orders qualifying events by game date
alone (stable in input order within a date), so the team lookup maps an
entity to the batting team — away-team code when the half-inning is "Top",
home-team code otherwise — of its strictly-latest-dated qualifying event
whenever one exists; same-date ties are resolved by input position, not by
at-bat number.  Every merged record's team field is the lookup value,
defaulting to the empty string when the entity is absent. -/
theorem c6_team_lookup_amended :
    (∀ (df : List Event) (b : ℤ) (e : Event),
      e ∈ df → e.events_present = true → e.batter = b →
      (∀ x ∈ df, x.events_present = true → x.batter = b → x ≠ e →
        x.game_date < e.game_date) →
      extractBatterTeams df b = some (batTeam e)) ∧
    (∀ (ev? : Option (List EVRow)) (rolling : ℤ → Option BatterResult)
        (pitch : List Event) (row : SeasonRow),
      ¬ row.pa < MIN_PA →
      ∃ p, buildPlayer ev? rolling (extractBatterTeams pitch) row = some p ∧
        p.team = (extractBatterTeams pitch row.player_id).getD "") := by
  constructor
  · intro df b e hedf hev hb hmax
    have hsorted : ((ssort ltDate (qualifying df)).filter
        (fun x => x.batter == b)).Pairwise (fun x y => ltDate y x = false) := by
      apply List.Pairwise.filter
      apply ssort_pairwise ltDate (fun _ => True)
      · intro x y _ _ h
        simp [ltDate] at h ⊢
        omega
      · intro x y z _ _ _ h
        simp [ltDate] at h ⊢
        omega
      · intro x _
        trivial
    have hmem : e ∈ (ssort ltDate (qualifying df)).filter (fun x => x.batter == b) := by
      rw [List.mem_filter, mem_ssort, qualifying, List.mem_filter]
      refine ⟨⟨hedf, by simp [hev]⟩, by simp [hb]⟩
    have hlast : ((ssort ltDate (qualifying df)).filter
        (fun x => x.batter == b)).getLast? = some e := by
      apply getLast?_eq_of_forall_lt ltDate _ e hmem hsorted
      intro x hx hne
      rw [List.mem_filter, mem_ssort, qualifying, List.mem_filter] at hx
      have hdate : x.game_date < e.game_date := by
        apply hmax x hx.1.1 (by simpa using hx.1.2) _ hne
        simpa using hx.2
      simp [ltDate, hdate]
    rw [extractBatterTeams, hlast]
    rfl
  · intro ev? rolling pitch row hpa
    exact ⟨_, buildPlayer_eq _ _ _ _ hpa, rfl⟩

/-- Witness for the amended C6: in `dfC6W` the date-9 event is strictly
latest, so the lookup yields its away team, and a built record carries the
lookup value. -/
theorem c6_team_lookup_amended_witness :
    extractBatterTeams dfC6W 1 = some (batTeam evLate) ∧
    (∃ p, buildPlayer none (fun _ => none) (extractBatterTeams dfC6W) rowFull = some p ∧
      p.team = (extractBatterTeams dfC6W rowFull.player_id).getD "") :=
  ⟨c6_team_lookup_amended.1 dfC6W 1 evLate (by with_unfolding_all decide) rfl rfl
      (by with_unfolding_all decide),
    c6_team_lookup_amended.2 none (fun _ => none) dfC6W rowFull (by decide)⟩

/-- C7: the final output list is sorted ascending by the primary
differential — for every pair of records in output order, the earlier
record's primary differential is not above the later one's — for every
input, hence regardless of input order. -/
theorem c7_output_sorted_ascending (expected : List SeasonRow) (ev? : Option (List EVRow))
    (pitch : List Event) :
    (runPipeline expected ev? pitch).Pairwise
      (fun a b => RFloat.ble a.diff_rolling_OBA b.diff_rolling_OBA = true) := by
  have hP : ∀ p ∈ expected.filterMap (buildPlayer ev?
      (rollingResults ROLLING_WINDOWS MIN_PA pitch) (extractBatterTeams pitch)),
      p.diff_rolling_OBA.isNan = false := by
    intro p hp
    obtain ⟨row, _, hb⟩ := List.mem_filterMap.mp hp
    exact buildPlayer_diff_not_nan _ _ _ _ _ _ _ hb
  have hpair := ssort_pairwise ltPlayer (fun p => p.diff_rolling_OBA.isNan = false)
    (fun x y _ _ h => blt_asymm _ _ h)
    (fun x y z _ hy _ h => blt_cotrans _ _ _ hy h)
    _ hP
  rw [runPipeline, outputPlayers]
  refine List.Pairwise.imp ?_ hpair
  intro a b h
  rw [ltPlayer] at h
  rw [RFloat.ble, h]
  rfl

theorem isNan_true_iff (v : RFloat) : v.isNan = true ↔ v = RFloat.nan := by
  cases v <;> simp [RFloat.isNan]

theorem latestOf_eq_none_iff (s : List RFloat) :
    latestOf s = none ↔ (s.getLast? = none ∨ s.getLast? = some RFloat.nan) := by
  unfold latestOf
  cases h : s.getLast? with
  | none => simp
  | some u =>
    show (if u.isNan then none else some u) = none ↔ _
    by_cases hu : u.isNan = true
    · rw [if_pos hu]
      simp [(isNan_true_iff u).mp hu]
    · rw [if_neg hu]
      constructor
      · intro hh
        cases hh
      · rintro (hh | hh)
        · cases hh
        · rw [Option.some_inj] at hh
          subst hh
          simp [RFloat.isNan] at hu
  
theorem rollingWoba_getLast? (w : ℕ) (pa : List Event) (hw : 0 < w)
    (hwn : w ≤ pa.length) :
    (rollingWoba w pa).getLast? = some
      (fdiv (some (((pa.drop (pa.length - w)).map wobaVal).sum))
        (some (((pa.drop (pa.length - w)).map wobaDen).sum))) := by
  have hidx : pa.length - 1 < pa.length := by
    have := lt_of_lt_of_le hw hwn
    omega
  rw [List.getLast?_eq_getElem?, length_rollingWoba,
    getElem?_rollingWoba w pa _ hidx,
    trailingSum_last w wobaVal pa hw hwn,
    trailingSum_last w wobaDen pa hw hwn]

/-- C8 counterexample: with all 50 weights 0 but realized values 9/10, the
trailing weight sum of the only full window is 0, yet the headline
realized ratio is reported as positive infinity — a present value, not an
absent one (pandas `45.0/0.0 = inf`, and `pd.isna(inf)` is false). -/
theorem c8_counterexample :
    (((batterSeq dfC8 1).map wobaDen).sum = 0) ∧
    ((rollingResults ROLLING_WINDOWS MIN_PA dfC8 1).bind
      (fun br => (br.windows.lookup 50).bind (fun wr => wr.rolling_woba)))
      = some (RFloat.inf true) := by
  with_unfolding_all decide

/-- C8 (amended): a rolling ratio whose trailing weight sum is zero is
absent only when the trailing realized sum is also zero; when the realized
sum is nonzero the ratio — and the stored headline — is a signed infinite
value, not absent; with a nonzero weight sum the stored headline is the
rounded quotient.  A window's headline differential is absent exactly when
the latest differential is missing or undefined, rather than zero.  Every
absent provider season numeric is emitted absent in the merged record, and
every absent batted-ball numeric is emitted absent, never as a number. -/
theorem c8_absent_propagation_amended :
    (∀ (w : ℕ) (pa : List Event), 0 < w → w ≤ pa.length →
      ((((pa.drop (pa.length - w)).map wobaDen).sum = 0 →
        ((((pa.drop (pa.length - w)).map wobaVal).sum = 0 →
          (windowResult w pa).rolling_woba = none) ∧
        ((((pa.drop (pa.length - w)).map wobaVal).sum ≠ 0 →
          (windowResult w pa).rolling_woba =
            some (RFloat.inf (decide (0 < ((pa.drop (pa.length - w)).map wobaVal).sum))))))) ∧
      ((((pa.drop (pa.length - w)).map wobaDen).sum ≠ 0 →
        (windowResult w pa).rolling_woba = some (RFloat.fin (round3
          (((pa.drop (pa.length - w)).map wobaVal).sum /
            ((pa.drop (pa.length - w)).map wobaDen).sum))))))) ∧
    (∀ (w : ℕ) (pa : List Event),
      ((windowResult w pa).diff_rolling_OBA = none ↔
        ((rollingDiff w pa).getLast? = none ∨
          (rollingDiff w pa).getLast? = some RFloat.nan))) ∧
    (∀ (ev? : Option (List EVRow)) (rolling : ℤ → Option BatterResult)
        (teamMap : ℤ → Option String) (row : SeasonRow), ¬ row.pa < MIN_PA →
      ∃ p, buildPlayer ev? rolling teamMap row = some p ∧
        (row.ba = none → p.batting_avg = none) ∧
        (row.woba = none → p.wOBA = none) ∧
        (row.est_woba = none → p.xwOBA = none) ∧
        (row.est_woba_minus_woba_diff = none → p.diff_season = none) ∧
        (row.est_ba = none → p.xBA = none) ∧
        (row.est_slg = none → p.xSLG = none)) ∧
    (∀ r : EVRow,
      (r.avg_hit_speed = none → (mkEVStats r).exit_velocity = none) ∧
      (r.avg_hit_angle = none → (mkEVStats r).launch_angle = none) ∧
      (r.ev95percent = none → (mkEVStats r).hard_hit_pct = none) ∧
      (r.brl_percent = none → (mkEVStats r).barrel_pct = none) ∧
      (r.max_hit_speed = none → (mkEVStats r).max_exit_velocity = none)) := by
  refine ⟨?_, ?_, ?_, ?_⟩
  · intro w pa hw hwn
    have hlast := rollingWoba_getLast? w pa hw hwn
    constructor
    · intro hden
      constructor
      · intro hnum
        rw [windowResult_woba, Option.map_eq_none']
        rw [latestOf_eq_none_iff, hlast]
        right
        rw [Option.some_inj, hden, hnum]
        simp [fdiv]
      · intro hnum
        have hf : fdiv (some (((pa.drop (pa.length - w)).map wobaVal).sum))
            (some (((pa.drop (pa.length - w)).map wobaDen).sum)) =
            RFloat.inf (decide (0 < ((pa.drop (pa.length - w)).map wobaVal).sum)) := by
          rw [hden]
          simp only [fdiv]
          rw [if_pos trivial, if_neg hnum]
        rw [windowResult_woba, latestOf, hlast, hf]
        rfl
    · intro hden
      rw [windowResult_woba, latestOf, hlast, fdiv_eq_fin _ _ hden]
      rfl
  · intro w pa
    rw [windowResult_diff, Option.map_eq_none', latestOf_eq_none_iff]
  · intro ev? rolling teamMap row hpa
    refine ⟨_, buildPlayer_eq _ _ _ _ hpa, ?_, ?_, ?_, ?_, ?_, ?_⟩ <;>
      (intro h; simp only [h, Option.map_none'])
  · intro r
    refine ⟨?_, ?_, ?_, ?_, ?_⟩ <;>
      (intro h; simp only [mkEVStats, h, Option.map_none'])

/-- Witness for the amended C8 at `dfC8` (zero weight sum, nonzero
realized sum: an infinite present headline; the differential headline is
absent because the latest differential is `inf − inf = nan`) and at the
all-absent season row. -/
theorem c8_absent_propagation_amended_witness :
    (windowResult 50 (batterSeq dfC8 1)).rolling_woba =
      some (RFloat.inf (decide (0 <
        (((batterSeq dfC8 1).drop ((batterSeq dfC8 1).length - 50)).map wobaVal).sum))) ∧
    ((windowResult 50 (batterSeq dfC8 1)).diff_rolling_OBA = none ↔
      ((rollingDiff 50 (batterSeq dfC8 1)).getLast? = none ∨
        (rollingDiff 50 (batterSeq dfC8 1)).getLast? = some RFloat.nan)) ∧
    (∃ p, buildPlayer none (fun _ => none) (fun _ => none) rowEmptyStats = some p ∧
      (rowEmptyStats.ba = none → p.batting_avg = none)) := by
  refine ⟨((c8_absent_propagation_amended.1 50 (batterSeq dfC8 1) (by decide)
      (by with_unfolding_all decide)).1 (by with_unfolding_all decide)).2
      (by with_unfolding_all decide),
    c8_absent_propagation_amended.2.1 50 (batterSeq dfC8 1), ?_⟩
  obtain ⟨p, hp, h1, _⟩ := c8_absent_propagation_amended.2.2.1 none (fun _ => none)
    (fun _ => none) rowEmptyStats (by decide)
  exact ⟨p, hp, h1⟩

/-- C10 (implicit): the rolling results contain an entry for an entity iff
its qualifying-event count reaches the threshold and at least one
configured window fits within that count — so a count at or above the
threshold but below every window would be dropped silently — and every
present entry has a non-empty window map.  The positive-threshold
hypothesis matches the source, whose groupby only ever visits entities
with at least one event. -/
theorem c10_rolling_presence (windows : List ℕ) (minPA : ℕ) (df : List Event) (b : ℤ)
    (hmin : 0 < minPA) :
    ((rollingResults windows minPA df b).isSome = true ↔
      (minPA ≤ (batterSeq df b).length ∧
        ∃ w ∈ windows, w ≤ (batterSeq df b).length)) ∧
    (∀ br, rollingResults windows minPA df b = some br → br.windows ≠ []) := by
  rw [rollingResults, batterResult]
  by_cases h1 : (batterSeq df b).length < minPA
  · rw [if_pos h1]
    refine ⟨?_, fun br hbr => by cases hbr⟩
    constructor
    · intro hh
      simp at hh
    · rintro ⟨hle, -⟩
      omega
  · rw [if_neg h1]
    by_cases h2 : ((windows.filter (fun w => decide (w ≤ (batterSeq df b).length))).map
        (fun w => (w, windowResult w (batterSeq df b)))).isEmpty = true
    · rw [if_pos h2]
      rw [List.isEmpty_iff, List.map_eq_nil_iff, List.filter_eq_nil_iff] at h2
      refine ⟨?_, fun br hbr => by cases hbr⟩
      constructor
      · intro hh
        simp at hh
      · rintro ⟨hle, w, hw, hwn⟩
        exact absurd (decide_eq_true hwn) (h2 w hw)
    · rw [if_neg h2]
      constructor
      · simp only [Option.isSome_some, true_iff]
        refine ⟨not_lt.mp h1, ?_⟩
        rw [List.isEmpty_iff, List.map_eq_nil_iff] at h2
        obtain ⟨w, hw⟩ := List.exists_mem_of_ne_nil _ h2
        rw [List.mem_filter] at hw
        exact ⟨w, hw.1, of_decide_eq_true hw.2⟩
      · intro br hbr
        rw [Option.some_inj] at hbr
        subst hbr
        simp only [ne_eq, List.map_eq_nil_iff]
        intro hnil
        rw [List.isEmpty_iff, List.map_eq_nil_iff] at h2
        exact h2 hnil

/-- Witness for C10 at the 50-event batter of `dfC1`. -/
theorem c10_rolling_presence_witness :
    0 < MIN_PA ∧
    ((rollingResults ROLLING_WINDOWS MIN_PA dfC1 1).isSome = true ↔
      (MIN_PA ≤ (batterSeq dfC1 1).length ∧
        ∃ w ∈ ROLLING_WINDOWS, w ≤ (batterSeq dfC1 1).length)) :=
  ⟨by decide, (c10_rolling_presence ROLLING_WINDOWS MIN_PA dfC1 1 (by decide)).1⟩
